import Mathlib

/-!
Verification development for the Borland-demangler AST parser
(`src/demangler_llvm/borland_ast_parser.cpp`).

The parser is embedded shallowly: the mangled string is a `List Char`, the
cursor `_mangled` is an index `pos` into it (the cursor is always a suffix of
the original string, as in the C++ code, where only the `First` pointer of the
`StringView` ever moves), the sticky `_status` register is a field of the
state, and AST nodes live in an append-only arena so that node *handles*
(arena indices) model `shared_ptr<Node>` identity.  The mutually recursive
grammar rules are indexed by a fuel parameter: `none` means the fuel ran out,
`some (r, st)` means the C++ function returned `r` (with `none : Option Nat`
playing the role of a null `shared_ptr`) in state `st`.

Raw reads of the cursor's first character (`_mangled.front()` and the `*c`
scans of `parseFuncName`/`parseName`) are modelled by `readCharAt`: a read at
or past the end of the string returns the NUL terminator guaranteed by
`std::string::c_str()` and records the out-of-bounds access in the `oob`
flag of the state.  The flag is purely observational: it never influences
control flow.
-/

/-- Parser status, as in the C++ `BorlandASTParser::Status`. -/
inductive Status where
  | in_progress
  | success
  | invalid_mangled_name
deriving DecidableEq, Repr

/-- Calling conventions distinguished by the grammar. -/
inductive CallConv where
  | fastcall
  | stdcall
  | unknown
deriving DecidableEq, Repr

/-- The `const`/`volatile` qualifier pair.  The C++ constructor order is
`Qualifiers(is_volatile, is_const)`. -/
structure Qualifiers where
  isVolatile : Bool
  isConst : Bool
deriving DecidableEq, Repr

/-- Tri-state signedness of `char`, as in `ThreeStateSignness`. -/
inductive Signness where
  | signed_char
  | unsigned_char
  | no_marker
deriving DecidableEq, Repr

/-- Payload of one allocated AST node.  Child references are arena indices
(handles), so handle equality is node identity, not structural equality. -/
inductive NodeData where
  | nameN (text : List Char)
  | nestedName (ns nm : Nat)
  | templateN (nm : Nat) (args : List Nat)
  | functionN (nm ft : Nat)
  | funcType (cc : CallConv) (params : Option (List Nat)) (ret : Option Nat) (q : Qualifiers)
  | pointerT (pointee : Nat) (q : Qualifiers)
  | referenceT (t : Nat)
  | rrefT (t : Nat)
  | arrayT (t : Nat) (len : Nat) (q : Qualifiers)
  | namedT (nm : Nat) (q : Qualifiers)
  | builtinT (name : String) (q : Qualifiers)
  | charT (sign : Signness) (q : Qualifiers)
  | integralT (name : String) (uns : Bool) (q : Qualifiers)
  | floatT (name : String) (q : Qualifiers)
deriving DecidableEq, Repr

/-- Full parser state: original string, cursor position, sticky status,
node arena, resulting AST root, and the out-of-bounds-read flag. -/
structure PState where
  s : List Char
  pos : Nat
  status : Status
  arena : List NodeData
  ast : Option Nat
  oob : Bool
deriving DecidableEq, Repr

/-- A fueled parser computation: `none` is fuel exhaustion. -/
def M (α : Type) : Type := PState → Option (α × PState)

/-- Sequencing of fueled computations. -/
def obind {α β : Type} (x : Option (α × PState)) (f : α → M β) : Option (β × PState) :=
  match x with
  | none => none
  | some (a, st) => f a st

/-- The remaining (unconsumed) part of the input: the `_mangled` view. -/
def remaining (st : PState) : List Char := st.s.drop st.pos

/-- First character of the remaining view, if any. -/
def headRem (st : PState) : Option Char := (remaining st).head?

/-- Advance the cursor by `n` characters. -/
def advance (st : PState) (n : Nat) : PState := { st with pos := st.pos + n }

/-- Set the sticky error status. -/
def setInvalid (st : PState) : PState := { st with status := .invalid_mangled_name }

/-- Character at absolute index `i` of the original string; reading at or past
the end yields the NUL terminator of `c_str()`. -/
def charAt (s : List Char) (i : Nat) : Char :=
  match (s.drop i).head? with
  | some c => c
  | none => Char.ofNat 0

/-- Raw character read at absolute index `i`; records an out-of-bounds access
when `i` is at or past the end of the string. -/
def readCharAt (i : Nat) (st : PState) : Char × PState :=
  (charAt st.s i, if st.s.length ≤ i then { st with oob := true } else st)

/-- Modelled from the spec: `_mangled.front()` — an unchecked read of the first
character of the remaining view (`StringView::front` has precondition
non-empty; on a `c_str()`-backed view an empty read returns the terminator). -/
def rawFront (st : PState) : Char × PState := readCharAt st.pos st

/-- Modelled from the spec: `consumeFront(char)` — consume one matching
character, otherwise leave the cursor untouched. -/
def consumeFrontChar (c : Char) (st : PState) : Bool × PState :=
  if headRem st = some c then (true, advance st 1) else (false, st)

/-- Modelled from the spec: `consumeFront(StringView)` — consume a literal
prefix (content comparison), otherwise leave the cursor untouched. -/
def consumeFrontStr (w : List Char) (st : PState) : Bool × PState :=
  if (remaining st).take w.length = w then (true, advance st w.length) else (false, st)

/-- Embeds `BorlandASTParser::consume(char)`: hard consume, setting
`invalid_mangled_name` on mismatch. -/
def consumeC (c : Char) (st : PState) : Bool × PState :=
  match consumeFrontChar c st with
  | (true, st') => (true, st')
  | (false, st') => (false, setInvalid st')

/-- Modelled from the spec: `cutUntil(delim)` — return the prefix strictly
before the next occurrence of `delim`, consuming only that prefix; if the
delimiter is absent, return an empty result and consume nothing. -/
def cutUntil (d : Char) (st : PState) : List Char × PState :=
  match (remaining st).findIdx? (fun c => c = d) with
  | some i => ((remaining st).take i, advance st i)
  | none => ([], st)

/-- Decimal digit test. -/
def isDig (c : Char) : Bool := decide ('0' ≤ c ∧ c ≤ '9')

/-- Accumulate the decimal value of a digit run. -/
def readAcc : List Char → Nat → Nat
  | [], acc => acc
  | c :: cs, acc => readAcc cs (10 * acc + (c.toNat - 48))

/-- Embeds `BorlandASTParser::peekNumber`: non-consuming, returns 0 on a leading `'0'`
or a non-digit, otherwise the value of the maximal leading digit run. -/
def peekNumberVal (st : PState) : Nat :=
  match headRem st with
  | none => 0
  | some c =>
    if c = '0' then 0
    else readAcc ((remaining st).takeWhile isDig) 0

/-- Embeds `BorlandASTParser::parseNumber`: consuming variant; a leading `'0'` sets
`invalid_mangled_name` and consumes nothing. -/
def parseNumber (st : PState) : Nat × PState :=
  match headRem st with
  | none => (0, st)
  | some c =>
    if c = '0' then (0, setInvalid st)
    else
      let ds := (remaining st).takeWhile isDig
      (readAcc ds 0, advance st ds.length)

/-- Allocate a node in the arena and return its handle (its index). -/
def createNode (d : NodeData) (st : PState) : Nat × PState :=
  (st.arena.length, { st with arena := st.arena ++ [d] })

/-- Allocate a node and wrap the handle as a successful parse result. -/
def mkNodeM (d : NodeData) (st : PState) : Option (Option Nat × PState) :=
  match createNode d st with
  | (h, st') => some (some h, st')

/-- Embeds `BorlandASTParser::checkResult`: null result or an already-invalid status
forces (and keeps) `invalid_mangled_name`. -/
def checkResult {α : Type} (n : Option α) (st : PState) : Bool × PState :=
  if n.isNone ∨ st.status = .invalid_mangled_name then (false, setInvalid st)
  else (true, st)

/-- Tests `Node::kind() == KReferenceType` on a handle. -/
def isRefKind (st : PState) (h : Nat) : Bool :=
  match st.arena.get? h with
  | some (.referenceT _) => true
  | _ => false

/-- Tests `Node::kind() == KRReferenceType` on a handle. -/
def isRRefKind (st : PState) (h : Nat) : Bool :=
  match st.arena.get? h with
  | some (.rrefT _) => true
  | _ => false

/-- Embeds `BorlandASTParser::parseQualifiers`: consumes `'w'` then `'x'`, in that
fixed order. -/
def parseQualifiers (st : PState) : Qualifiers × PState :=
  match consumeFrontChar 'w' st with
  | (w, st1) =>
    match consumeFrontChar 'x' st1 with
    | (x, st2) => (⟨w, x⟩, st2)

/-- Embeds `BorlandASTParser::parseCallConv`. -/
def parseCallConv (st : PState) : CallConv × PState :=
  match consumeFrontStr "qqr".data st with
  | (true, st') => (.fastcall, st')
  | (false, _) =>
    match consumeFrontStr "qqs".data st with
    | (true, st') => (.stdcall, st')
    | (false, _) =>
      match consumeFrontChar 'q' st with
      | (true, st') => (.unknown, st')
      | (false, _) => (.unknown, setInvalid st)

/-- Embeds `BorlandASTParser::parseBuildInType` (sic), in exact source order. -/
def parseBuildInType (q : Qualifiers) (st0 : PState) : Option Nat × PState :=
  match consumeFrontChar 'o' st0 with
  | (true, st) =>
    match createNode (.builtinT "bool" q) st with
    | (h, st') => (some h, st')
  | (false, _) =>
  match consumeFrontChar 'b' st0 with
  | (true, st) =>
    match createNode (.builtinT "wchar_t" q) st with
    | (h, st') => (some h, st')
  | (false, _) =>
  match consumeFrontChar 'v' st0 with
  | (true, st) =>
    match createNode (.builtinT "void" q) st with
    | (h, st') => (some h, st')
  | (false, _) =>
  match consumeFrontStr "zc".data st0 with
  | (true, st) =>
    match createNode (.charT .signed_char q) st with
    | (h, st') => (some h, st')
  | (false, _) =>
  match consumeFrontStr "uc".data st0 with
  | (true, st) =>
    match createNode (.charT .unsigned_char q) st with
    | (h, st') => (some h, st')
  | (false, _) =>
  match consumeFrontChar 'c' st0 with
  | (true, st) =>
    match createNode (.charT .no_marker q) st with
    | (h, st') => (some h, st')
  | (false, _) =>
  match consumeFrontChar 'u' st0 with
  | (isU, st1) =>
  match consumeFrontChar 's' st1 with
  | (true, st) =>
    match createNode (.integralT "short" isU q) st with
    | (h, st') => (some h, st')
  | (false, _) =>
  match consumeFrontChar 'i' st1 with
  | (true, st) =>
    match createNode (.integralT "int" isU q) st with
    | (h, st') => (some h, st')
  | (false, _) =>
  match consumeFrontChar 'l' st1 with
  | (true, st) =>
    match createNode (.integralT "long" isU q) st with
    | (h, st') => (some h, st')
  | (false, _) =>
  match consumeFrontChar 'j' st1 with
  | (true, st) =>
    match createNode (.integralT "long long" isU q) st with
    | (h, st') => (some h, st')
  | (false, _) =>
  if isU then (none, setInvalid st1)
  else
    match consumeFrontChar 'f' st1 with
    | (true, st) =>
      match createNode (.floatT "float" q) st with
      | (h, st') => (some h, st')
    | (false, _) =>
    match consumeFrontChar 'd' st1 with
    | (true, st) =>
      match createNode (.floatT "double" q) st with
      | (h, st') => (some h, st')
    | (false, _) =>
    match consumeFrontChar 'g' st1 with
    | (true, st) =>
      match createNode (.floatT "long double" q) st with
      | (h, st') => (some h, st')
    | (false, _) => (none, st1)

/-- Characters `[a, b)` of `s` (a `StringView(start, c)` slice). -/
def sliceL (s : List Char) (a b : Nat) : List Char := (s.drop a).take (b - a)

/-- Embeds `BorlandASTParser::parseTemplateName`. -/
def parseTemplateNameF (ns : Option Nat) (st : PState) : Option Nat × PState :=
  match cutUntil '$' st with
  | (tn, st1) =>
    if tn = [] then (none, setInvalid st1)
    else
      match createNode (.nameN tn) st1 with
      | (h, st2) =>
        match ns with
        | some p =>
          match createNode (.nestedName p h) st2 with
          | (h2, st3) => (some h2, st3)
        | none => (some h, st2)

/-- The free scanning loop of `BorlandASTParser::parseFuncName` (lines
176-204): `c` walks from `start` while `c <= end` (`end` = end of the whole
string, so the final iteration reads the NUL terminator), splitting the name
at `'$'`, `'%'` and `'@'`.  `cnt` is the number of remaining loop iterations
(`s.length + 1 - c`). -/
def funcNameScan : Nat → Nat → Nat → Option Nat → PState → (Option Nat × PState)
  | 0, _, _, acc, st => (acc, st)
  | cnt+1, c, start, acc, st =>
    match readCharAt c st with
    | (ch, st1) =>
      if ch = '$' ∨ ch = '%' ∨ ch = '@' then
        match
          (if sliceL st1.s start c = [] then (acc, start, st1)
           else
             match consumeFrontStr (sliceL st1.s start c) st1 with
             | (_, sA) =>
               match createNode (.nameN (sliceL sA.s start c)) sA with
               | (h, sB) =>
                 match acc with
                 | none => ((some h : Option Nat), c + 1, sB)
                 | some p =>
                   match createNode (.nestedName p h) sB with
                   | (h2, sC) => (some h2, c + 1, sC)) with
        | (acc2, start2, st2) =>
          match rawFront st2 with
          | (fch, st3) =>
            if fch = '@' then
              match consumeFrontChar '@' st3 with
              | (_, st4) => funcNameScan cnt (c + 1) start2 acc2 st4
            else (acc2, st3)
      else funcNameScan cnt (c + 1) start acc st1

/-- The bounded scanning loop of `BorlandASTParser::parseName` (lines
215-243): like `funcNameScan` but bounded by `endMangled` (`while (c < end)`)
and splitting only at `'%'` and `'@'`.  Returns the accumulated name, the
final `c` and `start`, and the state. -/
def parseNameScan : Nat → Nat → Nat → Option Nat → PState → (Option Nat × Nat × Nat × PState)
  | 0, c, start, acc, st => (acc, c, start, st)
  | cnt+1, c, start, acc, st =>
    match readCharAt c st with
    | (ch, st1) =>
      if ch = '%' ∨ ch = '@' then
        match
          (if sliceL st1.s start c = [] then (acc, start, st1)
           else
             match consumeFrontStr (sliceL st1.s start c) st1 with
             | (_, sA) =>
               match createNode (.nameN (sliceL sA.s start c)) sA with
               | (h, sB) =>
                 match acc with
                 | none => ((some h : Option Nat), c + 1, sB)
                 | some p =>
                   match createNode (.nestedName p h) sB with
                   | (h2, sC) => (some h2, c + 1, sC)) with
        | (acc2, start2, st2) =>
          match rawFront st2 with
          | (fch, st3) =>
            if fch = '@' then
              match consumeFrontChar '@' st3 with
              | (_, st4) => parseNameScan cnt (c + 1) start2 acc2 st4
            else (acc2, c, start2, st3)
      else parseNameScan cnt (c + 1) start acc st1

/-- The tuple of all mutually recursive grammar rules at one fuel level. -/
structure PFns where
  pType : M (Option Nat)
  pPointer : Qualifiers → M (Option Nat)
  pRef : M (Option Nat)
  pRRef : M (Option Nat)
  pArr : Qualifiers → M (Option Nat)
  pFuncType : Qualifiers → M (Option Nat)
  pFuncParamsLoop : List Nat → M (Option (List Nat))
  pNamedType : Nat → Qualifiers → M (Option Nat)
  pNameB : Nat → M (Option Nat)
  pTemplU : Option Nat → M (Option Nat)
  pTemplParamsLoop : List Nat → M (Option (List Nat))
  pTemplB : Option Nat → Nat → M (Option Nat)
  pTemplBLoop : List Nat → M (List Nat)

/-- Zero-fuel level: every rule is out of fuel. -/
def botFns : PFns where
  pType := fun _ => none
  pPointer := fun _ _ => none
  pRef := fun _ => none
  pRRef := fun _ => none
  pArr := fun _ _ => none
  pFuncType := fun _ _ => none
  pFuncParamsLoop := fun _ _ => none
  pNamedType := fun _ _ _ => none
  pNameB := fun _ _ => none
  pTemplU := fun _ _ => none
  pTemplParamsLoop := fun _ _ => none
  pTemplB := fun _ _ _ => none
  pTemplBLoop := fun _ _ => none

/-- Tail of `parseFuncType` after the parameter list: optional `'$'`-prefixed
return type, then `FunctionTypeNode::create`. -/
def funcTypeAfterRet (cc : CallConv) (q : Qualifiers) (ps : Option (List Nat)) :
    Option Nat → M (Option Nat) := fun rt st =>
  match checkResult rt st with
  | (true, st1) => mkNodeM (.funcType cc ps rt q) st1
  | (false, st1) => some (none, st1)

/-- Continuation of `parseFuncType` once `parseFuncParams` has returned. -/
def funcTypeAfterParams (P : PFns) (cc : CallConv) (q : Qualifiers) :
    Option (List Nat) → M (Option Nat) := fun ps st =>
  if st.status = .in_progress then
    match consumeFrontChar '$' st with
    | (true, st1) => obind (P.pType st1) (funcTypeAfterRet cc q ps)
    | (false, st1) => mkNodeM (.funcType cc ps none q) st1
  else some (none, st)

/-- Embeds `BorlandASTParser::parseFuncType` (lines 263-287). -/
def pFuncTypeF (P : PFns) (q : Qualifiers) : M (Option Nat) := fun st =>
  match parseCallConv st with
  | (cc, st1) =>
    if st1.status = .in_progress then obind (P.pFuncParamsLoop [] st1) (funcTypeAfterParams P cc q)
    else some (none, st1)

/-- Continuation of `parsePointer` after the pointee type. -/
def pointerAfter (q : Qualifiers) : Option Nat → M (Option Nat) := fun t st =>
  match checkResult t st with
  | (true, st1) => mkNodeM (.pointerT (t.getD 0) q) st1
  | (false, st1) => some (none, st1)

/-- Embeds `BorlandASTParser::parsePointer` (lines 384-392). -/
def pPointerF (P : PFns) (q : Qualifiers) : M (Option Nat) := fun st =>
  obind (P.pType st) (pointerAfter q)

/-- Continuation of `parseReference` in the reference-to-function case. -/
def refFuncAfter : Option Nat → M (Option Nat) := fun t st =>
  match checkResult t st with
  | (true, st1) => mkNodeM (.referenceT (t.getD 0)) st1
  | (false, st1) => some (none, st1)

/-- Continuation of `parseReference` after the referenced type: a null result
or an invalid status becomes invalid via `checkResult`, but a reference or
rvalue-reference kind is rejected by returning null with the status
untouched (lines 405-409 set no status). -/
def refAfter : Option Nat → M (Option Nat) := fun t st =>
  match checkResult t st with
  | (true, st1) =>
    if isRefKind st1 (t.getD 0) ∨ isRRefKind st1 (t.getD 0) then some (none, st1)
    else mkNodeM (.referenceT (t.getD 0)) st1
  | (false, st1) => some (none, st1)

/-- Embeds `BorlandASTParser::parseReference` (lines 394-413). -/
def pRefF (P : PFns) : M (Option Nat) := fun st =>
  match consumeFrontChar '$' st with
  | (true, st1) => obind (P.pFuncType ⟨false, false⟩ st1) refFuncAfter
  | (false, _) => obind (P.pType st) refAfter

/-- Continuation of `parseRReference` in the reference-to-function case. -/
def rrefFuncAfter : Option Nat → M (Option Nat) := fun t st =>
  match checkResult t st with
  | (true, st1) => mkNodeM (.rrefT (t.getD 0)) st1
  | (false, st1) => some (none, st1)

/-- Continuation of `parseRReference` after the referenced type: here a null
result or a reference kind sets `invalid_mangled_name` explicitly
(lines 426-430). -/
def rrefAfter : Option Nat → M (Option Nat) := fun t st =>
  match t with
  | none => some (none, setInvalid st)
  | some h =>
    if isRefKind st h then some (none, setInvalid st)
    else mkNodeM (.rrefT h) st

/-- Embeds `BorlandASTParser::parseRReference` (lines 415-432). -/
def pRRefF (P : PFns) : M (Option Nat) := fun st =>
  match consumeFrontChar '$' st with
  | (true, st1) => obind (P.pFuncType ⟨false, false⟩ st1) rrefFuncAfter
  | (false, _) => obind (P.pType st) rrefAfter

/-- Continuation of `parseArray` after the element type. -/
def arrAfter (q : Qualifiers) (len : Nat) : Option Nat → M (Option Nat) := fun t st =>
  match checkResult t st with
  | (true, st1) => mkNodeM (.arrayT (t.getD 0) len q) st1
  | (false, st1) => some (none, st1)

/-- Embeds `BorlandASTParser::parseArray` (lines 434-452). -/
def pArrF (P : PFns) (q : Qualifiers) : M (Option Nat) := fun st =>
  match parseNumber st with
  | (len, st1) =>
    if len = 0 then some (none, setInvalid st1)
    else
      match consumeC '$' st1 with
      | (true, st2) => obind (P.pType st2) (arrAfter q len)
      | (false, st2) => some (none, st2)

/-- Continuation of `parseNamedType` after the bounded name. -/
def namedAfter (q : Qualifiers) : Option Nat → M (Option Nat) := fun nm st =>
  match nm with
  | none => some (none, setInvalid st)
  | some h => mkNodeM (.namedT h q) st

/-- Embeds `BorlandASTParser::parseNamedType` (lines 523-538): `end_named` is
`begin + nameLen`; a declared length past the end of the string is invalid. -/
def pNamedTypeF (P : PFns) (nameLen : Nat) (q : Qualifiers) : M (Option Nat) := fun st =>
  if st.s.length < st.pos + nameLen then some (none, setInvalid st)
  else obind (P.pNameB (st.pos + nameLen) st) (namedAfter q)

/-- Embeds `BorlandASTParser::parseName` (lines 215-261): scan to `endIdx`, then the
remainder segment when the scan ran to the boundary, then a bounded template
when it stopped at `'%'` strictly before the boundary. -/
def pNameBF (P : PFns) (endIdx : Nat) : M (Option Nat) := fun st =>
  match parseNameScan (endIdx - st.pos) st.pos st.pos none st with
  | (acc, c, start, st1) =>
    if c = endIdx then
      match consumeFrontStr (sliceL st1.s start c) st1 with
      | (_, sA) =>
        match createNode (.nameN (sliceL sA.s start c)) sA with
        | (h, sB) =>
          match acc with
          | none => some (some h, sB)
          | some p =>
            match createNode (.nestedName p h) sB with
            | (h2, sC) => some (some h2, sC)
    else if headRem st1 = some '%' then P.pTemplB acc endIdx st1
    else some (acc, st1)

/-- One type-parsing step of the unbounded template-argument loop
(`parseTemplateParams`, lines 568-574): run `parseType`, fail on a sticky
error, append a non-null result, and iterate. -/
def templParamsTypeStep (P : PFns) (params : List Nat) : M (Option (List Nat)) := fun st =>
  obind (P.pType st) fun t st2 =>
    if st2.status = .in_progress then
      match t with
      | some h => P.pTemplParamsLoop (params ++ [h]) st2
      | none => P.pTemplParamsLoop params st2
    else some (none, st2)

/-- Empty parameter/argument arrays are returned as null
(`params->empty() ? nullptr : params`). -/
def exitParams (params : List Nat) : Option (List Nat) :=
  if params = [] then none else some params

/-- The loop of `BorlandASTParser::parseTemplateParams` (lines 556-577):
`while (_mangled.front() != '%')` (an unchecked read), with the `'t'`
backreference probe via the non-consuming `peekNumber`. -/
def pTemplParamsLoopF (P : PFns) (params : List Nat) : M (Option (List Nat)) := fun st =>
  match rawFront st with
  | (ch, st0) =>
    if ch = '%' then some (exitParams params, st0)
    else
      match consumeFrontChar 't' st0 with
      | (true, st1) =>
        if 1 ≤ peekNumberVal st1 ∧ peekNumberVal st1 ≤ params.length then
          match parseNumber st1 with
          | (_, st2) => P.pTemplParamsLoop (params ++ [params.getD (peekNumberVal st1 - 1) 0]) st2
        else templParamsTypeStep P params st1
      | (false, _) => templParamsTypeStep P params st0

/-- Tail of the unbounded `parseTemplate` after the argument list. -/
def templUAfter (tn : Option Nat) : Option (List Nat) → M (Option Nat) := fun ps st =>
  match checkResult ps st with
  | (true, st1) =>
    match consumeC '%' st1 with
    | (true, st2) => mkNodeM (.templateN (tn.getD 0) (ps.getD [])) st2
    | (false, st2) => some (none, st2)
  | (false, st1) => some (none, st1)

/-- Embeds `BorlandASTParser::parseTemplate` (unbounded variant, lines 579-604). -/
def pTemplUF (P : PFns) (ns : Option Nat) : M (Option Nat) := fun st =>
  match consumeC '%' st with
  | (true, st1) =>
    match parseTemplateNameF ns st1 with
    | (tn, st2) =>
      match checkResult tn st2 with
      | (true, st3) =>
        match consumeC '$' st3 with
        | (true, st4) => obind (P.pTemplParamsLoop [] st4) (templUAfter tn)
        | (false, st4) => some (none, st4)
      | (false, st3) => some (none, st3)
  | (false, st1) => some (none, st1)

/-- One type-parsing step of the bounded template-argument loop
(`parseTemplate` bounded variant, lines 636-640): a null result or a sticky
error breaks out of the loop, returning the arguments collected so far. -/
def templBTypeStep (P : PFns) (params : List Nat) : M (List Nat) := fun st =>
  obind (P.pType st) fun t st2 =>
    match t with
    | none => some (params, st2)
    | some h =>
      if st2.status = .invalid_mangled_name then some (params, st2)
      else P.pTemplBLoop (params ++ [h]) st2

/-- The argument loop of the bounded `parseTemplate` (lines 626-641):
`while (!peekChar('%'))` with the same backreference probe. -/
def pTemplBLoopF (P : PFns) (params : List Nat) : M (List Nat) := fun st =>
  if headRem st = some '%' then some (params, st)
  else
    match consumeFrontChar 't' st with
    | (true, st1) =>
      if 1 ≤ peekNumberVal st1 ∧ peekNumberVal st1 ≤ params.length then
        match parseNumber st1 with
        | (_, st2) => P.pTemplBLoop (params ++ [params.getD (peekNumberVal st1 - 1) 0]) st2
      else templBTypeStep P params st1
    | (false, _) => templBTypeStep P params st

/-- Tail of the bounded `parseTemplate` after the argument list: consume the
closing `'%'`, then require the cursor to sit exactly on the declared
end-of-name boundary (lines 643-650). -/
def templBAfterParams (tnn : Nat) (endIdx : Nat) : List Nat → M (Option Nat) := fun ps st =>
  match consumeC '%' st with
  | (true, st1) =>
    if st1.pos ≠ endIdx then some (none, setInvalid st1)
    else mkNodeM (.templateN tnn ps) st1
  | (false, st1) => some (none, st1)

/-- Embeds `BorlandASTParser::parseTemplate` (bounded variant, lines 606-653). -/
def pTemplBF (P : PFns) (ns : Option Nat) (endIdx : Nat) : M (Option Nat) := fun st =>
  match consumeC '%' st with
  | (true, st1) =>
    match cutUntil '$' st1 with
    | (tn, st2) =>
      if tn = [] then some (none, setInvalid st2)
      else
        match createNode (.nameN tn) st2 with
        | (h, st3) =>
          match
            (match ns with
             | some p =>
               match createNode (.nestedName p h) st3 with
               | (h2, st4) => (h2, st4)
             | none => (h, st3)) with
          | (tnn, st5) =>
            match consumeC '$' st5 with
            | (true, st6) => obind (P.pTemplBLoop [] st6) (templBAfterParams tnn endIdx)
            | (false, st6) => some (none, st6)
  | (false, st1) => some (none, st1)

/-- Continuation of the parameter-list loop after an ordinary type
(`parseFuncParams`, lines 323-332). -/
def funcParamsAfterType (P : PFns) (params : List Nat) :
    Option Nat → M (Option (List Nat)) := fun t st =>
  if st.status = .in_progress then
    match t with
    | some h => P.pFuncParamsLoop (params ++ [h]) st
    | none => P.pFuncParamsLoop params st
  else some (none, st)

/-- The loop of `BorlandASTParser::parseFuncParams` (lines 311-336):
`while (!empty && statusOk && !peekChar('$'))`; a `'t'` always commits to a
backreference, parsing (consuming) the number and turning 0, out-of-range or
an invalid number directly into `invalid_mangled_name`. -/
def pFuncParamsLoopF (P : PFns) (params : List Nat) : M (Option (List Nat)) := fun st =>
  if st.s.length ≤ st.pos ∨ st.status ≠ .in_progress ∨ headRem st = some '$' then
    some (exitParams params, st)
  else
    match consumeFrontChar 't' st with
    | (true, st1) =>
      match parseNumber st1 with
      | (k, st2) =>
        if k = 0 ∨ params.length < k ∨ st2.status ≠ .in_progress then
          some (none, setInvalid st2)
        else P.pFuncParamsLoop (params ++ [params.getD (k - 1) 0]) st2
    | (false, _) => obind (P.pType st) (funcParamsAfterType P params)

/-- Embeds the `BorlandASTParser::parseType` dispatch after the qualifiers
(lines 338-382). -/
def pTypeDispatch (P : PFns) (q : Qualifiers) : M (Option Nat) := fun st =>
  match consumeFrontChar 'p' st with
  | (true, st1) => P.pPointer q st1
  | (false, _) =>
  match consumeFrontChar 'r' st with
  | (true, st1) =>
    if q.isConst ∨ q.isVolatile then some (none, setInvalid st1) else P.pRef st1
  | (false, _) =>
  match consumeFrontChar 'h' st with
  | (true, st1) =>
    if q.isConst ∨ q.isVolatile then some (none, setInvalid st1) else P.pRRef st1
  | (false, _) =>
  match consumeFrontChar 'a' st with
  | (true, st1) => P.pArr q st1
  | (false, _) =>
  if headRem st = some 'q' then P.pFuncType q st
  else
    match parseNumber st with
    | (len, st2) =>
      if st2.status = .invalid_mangled_name then some (none, st2)
      else if 0 < len then P.pNamedType len q st2
      else some (parseBuildInType q st2)

/-- Embeds `BorlandASTParser::parseType`: qualifiers first, then the dispatch. -/
def pTypeF (P : PFns) : M (Option Nat) := fun st =>
  match parseQualifiers st with
  | (q, st1) => pTypeDispatch P q st1

/-- One fuel level of the whole mutually recursive rule set. -/
def mkFns (P : PFns) : PFns where
  pType := pTypeF P
  pPointer := pPointerF P
  pRef := pRefF P
  pRRef := pRRefF P
  pArr := pArrF P
  pFuncType := pFuncTypeF P
  pFuncParamsLoop := pFuncParamsLoopF P
  pNamedType := pNamedTypeF P
  pNameB := pNameBF P
  pTemplU := pTemplUF P
  pTemplParamsLoop := pTemplParamsLoopF P
  pTemplB := pTemplBF P
  pTemplBLoop := pTemplBLoopF P

/-- The rule set with `fuel` levels of recursion available. -/
def fns : Nat → PFns
  | 0 => botFns
  | n + 1 => mkFns (fns n)

/-- Tail of `parseFuncName` after an embedded unbounded template. -/
def funcNameAfterT : Option Nat → M (Option Nat) := fun t st =>
  match checkResult t st with
  | (_, st1) => some (t, st1)

/-- Embeds `BorlandASTParser::parseFuncName` (lines 176-213): free scan, then an
unbounded template when the cursor now fronts `'%'` (an unchecked read),
then `checkResult`. -/
def parseFuncNameF (P : PFns) : M (Option Nat) := fun st =>
  match funcNameScan (st.s.length + 1 - st.pos) st.pos st.pos none st with
  | (acc, st1) =>
    match rawFront st1 with
    | (ch, st2) =>
      if ch = '%' then obind (P.pTemplU acc st2) funcNameAfterT
      else
        match checkResult acc st2 with
        | (_, st3) => some (acc, st3)

/-- Tail of `parseFunction` after the function type: require full consumption,
then set `success` and build the `FunctionNode` root. -/
def parseFunctionTail (nm : Option Nat) : Option Nat → M Unit := fun ft st =>
  match checkResult ft st with
  | (true, st1) =>
    if st1.s.length ≤ st1.pos then
      match createNode (.functionN (nm.getD 0) (ft.getD 0)) { st1 with status := .success } with
      | (h, st2) => some ((), { st2 with ast := some h })
    else some ((), setInvalid st1)
  | (false, st1) => some ((), st1)

/-- Embeds `BorlandASTParser::parseFunction` (lines 146-174). -/
def parseFunction (fuel : Nat) : M Unit := fun st =>
  match consumeC '@' st with
  | (_, st1) =>
    obind (parseFuncNameF (fns fuel) st1) fun nm st2 =>
      match checkResult nm st2 with
      | (true, st3) =>
        match consumeC '$' st3 with
        | (true, st4) =>
          match parseQualifiers st4 with
          | (q, st5) => obind ((fns fuel).pFuncType q st5) (parseFunctionTail nm)
        | (false, st4) => some ((), st4)
      | (false, st3) => some ((), st3)

/-- Final step of `BorlandASTParser::parse` (lines 136-138): any unconsumed
input invalidates the whole parse. -/
def finishParse (st : PState) : PState :=
  if st.s.length ≤ st.pos then st else setInvalid st

/-- Lift `parseFunction`'s fueled result to the final parser state. -/
def runParse (r : Option (Unit × PState)) : Option PState :=
  match r with
  | none => none
  | some (_, st) => some (finishParse st)

/-- Fresh parser state over a mangled input, as set up by the constructor. -/
def initState (input : List Char) : PState :=
  ⟨input, 0, .in_progress, [], none, false⟩

/-- Embeds `BorlandASTParser::parse` run from the constructor: the whole parse of one
mangled string, with `fuel` recursion levels available. -/
def borlandParse (fuel : Nat) (input : List Char) : Option PState :=
  if headRem (initState input) = some '@' then runParse (parseFunction fuel (initState input))
  else some (finishParse (initState input))

/-- Status of a completed parse. -/
def statusOf (r : Option PState) : Option Status := r.map PState.status

/-! ### Concrete states used by the claim theorems -/

/-- Trivial qualifier pair. -/
def q0 : Qualifiers := ⟨false, false⟩

/-- The input of claim C1: its parameter position holds `'e'`, which matches
no type dispatch. -/
def c1input : List Char := "@f$qe".data

/-- The state reached inside `parseFuncType` of `c1input`, just before the
parameter list: the cursor fronts the undispatchable `'e'`. -/
def c1stE : PState := ⟨c1input, 4, .in_progress, [.nameN ['f']], none, false⟩

/-- The state reached inside `parseFunction` of `c1input`, just before the
calling convention. -/
def c1stCC : PState := ⟨c1input, 3, .in_progress, [.nameN ['f']], none, false⟩

/-- The final state of a successful parse of `"@foo$qi"` (spec Scenario 3). -/
def c2stW : PState :=
  ⟨"@foo$qi".data, 7, .success,
   [.nameN "foo".data, .integralT "int" false q0,
    .funcType .unknown (some [1]) none q0, .functionN 0 2],
   some 3, false⟩

/-- A common start state for both list loops: the remaining input is
`"t1i%"` and the current list is empty, so the peeked backreference index 1
is out of range. -/
def c3st : PState := ⟨"t1i%".data, 0, .in_progress, [], none, false⟩

/-- The final state of the whole-input parse of `"@f$qrri"`: `Success`, with
the reference-to-reference parameter silently dropped (the function type has
a null parameter array). -/
def c4stFinal : PState :=
  ⟨"@f$qrri".data, 7, .success,
   [.nameN ['f'], .integralT "int" false q0, .referenceT 1,
    .funcType .unknown none none q0, .functionN 0 3],
   some 4, false⟩

/-- A state whose remaining input `"ab"` is shorter than a declared name
length of 5. -/
def c6stShort : PState := ⟨"ab".data, 0, .in_progress, [], none, false⟩

/-- Start state of a bounded template parse of `"%t$i%"` whose declared
boundary is index 5. -/
def c6stT : PState := ⟨"%t$i%".data, 0, .in_progress, [], none, false⟩

/-- Final state of that bounded template parse: the cursor sits exactly on
the boundary. -/
def c6stT' : PState :=
  ⟨"%t$i%".data, 5, .in_progress,
   [.nameN ['t'], .integralT "int" false q0, .templateN 0 [1]], none, false⟩

/-- Final state of a bounded template parse of `"%t$i%"` against the *wrong*
boundary 7: the closing `'%'` leaves the cursor at 5, and the mismatch sets
`invalid_mangled_name`. -/
def c6stMM : PState :=
  ⟨"%t$i%".data, 5, .invalid_mangled_name,
   [.nameN ['t'], .integralT "int" false q0], none, false⟩

/-- State of that parse just before the closing `'%'` of the template. -/
def c6stPre : PState :=
  ⟨"%t$i%".data, 4, .in_progress,
   [.nameN ['t'], .integralT "int" false q0], none, false⟩

/-- Final state of the parse of the non-`'@'` input `"a"`. -/
def c7stA : PState := setInvalid (initState "a".data)

/-- A state whose remaining input starts with the digit `'0'`. -/
def c8st : PState := ⟨"01".data, 0, .in_progress, [], none, false⟩

/-- A state whose remaining input is the qualifier prefix `"xw"`. -/
def c9stXW : PState := ⟨"xw".data, 0, .in_progress, [], none, false⟩

/-- A state whose remaining input starts with the qualifier prefix `"wx"`. -/
def c9stWX : PState := ⟨"wxi".data, 0, .in_progress, [], none, false⟩

/-- Start state for a backreference step: remaining `"t1$"`, one stored
parameter handle `42`. -/
def c5st : PState := ⟨"t1$".data, 0, .in_progress, [], none, false⟩

/-- The final state of the parse of `"@"`: an out-of-bounds read occurred. -/
def c10st : PState := ⟨"@".data, 1, .invalid_mangled_name, [], none, true⟩

/-! ### Auxiliary lemmas -/

theorem obind_none {α β : Type} (f : α → M β) : obind none f = none := rfl

theorem obind_some {α β : Type} (a : α) (st : PState) (f : α → M β) :
    obind (some (a, st)) f = f a st := rfl

theorem remaining_advance (st : PState) (n : Nat) :
    remaining (advance st n) = (remaining st).drop n := by
  simp [remaining, advance, List.drop_drop, Nat.add_comm]

theorem headRem_ne_empty {st : PState} {c : Char} (h : headRem st = some c) :
    ¬ st.s.length ≤ st.pos := by
  intro hle
  have hnil : remaining st = [] := List.drop_eq_nil_of_le hle
  rw [headRem, hnil] at h
  simp at h

/-- The consuming and the non-consuming number parse agree on the value. -/
theorem parseNumber_fst (st : PState) : (parseNumber st).1 = peekNumberVal st := by
  rw [parseNumber, peekNumberVal]
  cases h : headRem st with
  | none => rfl
  | some c =>
    by_cases hc : c = '0' <;> simp [hc]

/-- When the peeked number is positive, `parseNumber` consumes exactly the
digit run and changes nothing else. -/
theorem parseNumber_of_peek_pos {st : PState} {k : Nat} (hk : peekNumberVal st = k)
    (h1 : 1 ≤ k) :
    parseNumber st = (k, advance st (((remaining st).takeWhile isDig).length)) := by
  cases h : headRem st with
  | none =>
    simp only [peekNumberVal, h] at hk
    omega
  | some c =>
    by_cases hc : c = '0'
    · subst hc
      simp only [peekNumberVal, h, if_pos] at hk
      omega
    · simp only [peekNumberVal, h, if_neg hc] at hk
      simp only [parseNumber, h, if_neg hc, hk]

/-- Here `parseType` on the undispatchable character `'e'` returns null without
consuming anything and without touching the status, at every recursion
level: the C1 loop state is a fixed point of one loop iteration. -/
theorem c1_type_step (P : PFns) : pTypeF P c1stE = some (none, c1stE) := rfl

/-- The parameter-list loop never terminates from the C1 loop state: the
single iteration neither consumes nor fails, so every fuel level is
exhausted. -/
theorem c1_loop (n : Nat) : ∀ params, (fns n).pFuncParamsLoop params c1stE = none := by
  induction n with
  | zero => intro params; rfl
  | succ n ih =>
    intro params
    have h1 : (fns (n + 1)).pFuncParamsLoop params c1stE
        = obind ((fns n).pType c1stE) (funcParamsAfterType (fns n) params) := rfl
    rw [h1]
    cases n with
    | zero => rfl
    | succ m =>
      have h2 : (fns (m + 1)).pType c1stE = some (none, c1stE) := c1_type_step (fns m)
      rw [h2, obind_some]
      exact ih params

/-- Likewise `parseFuncType` of the C1 input never completes at any fuel level. -/
theorem c1_functype (n : Nat) : (fns n).pFuncType q0 c1stCC = none := by
  cases n with
  | zero => rfl
  | succ n =>
    have h1 : (fns (n + 1)).pFuncType q0 c1stCC
        = obind ((fns n).pFuncParamsLoop [] c1stE) (funcTypeAfterParams (fns n) .unknown q0) :=
      rfl
    rw [h1, c1_loop n [], obind_none]

/-- Likewise `parseFunction` of the C1 input never completes at any fuel level. -/
theorem c1_function (n : Nat) : parseFunction n (initState c1input) = none := by
  have h1 : parseFunction n (initState c1input)
      = obind ((fns n).pFuncType q0 c1stCC) (parseFunctionTail (some 0)) := rfl
  rw [h1, c1_functype n, obind_none]

/-- Claim C1: false of the code.  The spec demands that every rule consume or
fail so that the parse of any finite input terminates — naming `"@f$qe"` as
an input that must still terminate.  On exactly that input the code loops
forever: `parseType` on `'e'` returns null with nothing consumed and the
status still `in_progress`, so the `parseFuncParams` loop repeats the same
iteration for ever; in the fueled embedding the parse exhausts every fuel
bound. -/
theorem c1_nontermination (fuel : Nat) : borlandParse fuel c1input = none := by
  have h1 : borlandParse fuel c1input = runParse (parseFunction fuel (initState c1input)) := rfl
  rw [h1, c1_function fuel]
  rfl

/-- Witness for C1 at a concrete fuel bound. -/
theorem c1_nontermination_witness : borlandParse 1000 c1input = none :=
  c1_nontermination 1000

/-- The final full-consumption check of `parse`: a state it passes through
unchanged with status `success` has an empty cursor. -/
theorem finishParse_success {st1 st' : PState} (heq : finishParse st1 = st')
    (hs : st'.status = .success) : remaining st' = [] := by
  rw [finishParse] at heq
  split at heq
  · subst heq
    next hle => exact List.drop_eq_nil_of_le hle
  · subst heq
    simp [setInvalid] at hs

/-- Claim C2: for every input, a final status of `Success` means the whole
input was consumed.  `parse` re-checks emptiness after `parseFunction` and
overrides any leftover input with `InvalidMangledName`, and `parseFunction`
itself sets `success` only after its own emptiness check, so a surviving
`Success` implies an empty cursor. -/
theorem c2_success_implies_empty (fuel : Nat) (input : List Char) (st' : PState)
    (h : borlandParse fuel input = some st') (hs : st'.status = .success) :
    remaining st' = [] := by
  rw [borlandParse] at h
  split at h
  · rw [runParse.eq_def] at h
    split at h
    · exact Option.noConfusion h
    · exact finishParse_success (Option.some.inj h) hs
  · exact finishParse_success (Option.some.inj h) hs

/-- Witness for C2: the successful parse of `"@foo$qi"` (spec Scenario 3)
ends with an empty cursor. -/
theorem c2_success_implies_empty_witness :
    borlandParse 40 "@foo$qi".data = some c2stW ∧ remaining c2stW = [] :=
  ⟨rfl, c2_success_implies_empty 40 "@foo$qi".data c2stW rfl rfl⟩

theorem consumeC_false {c : Char} {st st' : PState} (h : consumeC c st = (false, st')) :
    st'.status = .invalid_mangled_name := by
  rw [consumeC] at h
  split at h
  · cases h
  · cases h; rfl

theorem checkResult_false {α : Type} {n : Option α} {st st' : PState}
    (h : checkResult n st = (false, st')) : st'.status = .invalid_mangled_name := by
  rw [checkResult] at h
  split at h
  · cases h; rfl
  · cases h

/-- Every exit of `parseFunction`'s tail carries a decided status. -/
theorem parseFunctionTail_status {nm ft : Option Nat} {st : PState} {u : Unit} {st' : PState}
    (h : parseFunctionTail nm ft st = some (u, st')) :
    st'.status = .success ∨ st'.status = .invalid_mangled_name := by
  rw [parseFunctionTail.eq_def] at h
  split at h
  · split at h
    · split at h
      next h2 st2 hcr =>
        cases h
        rw [createNode] at hcr
        cases hcr
        exact Or.inl rfl
    · cases h
      exact Or.inr rfl
  · next st1 hcr =>
    cases h
    exact Or.inr (checkResult_false hcr)

/-- Every exit of `parseFunction` carries a decided status: each return path
either assigns `success` (after the emptiness check) or has set
`invalid_mangled_name` via `consume`/`checkResult`. -/
theorem parseFunction_status {fuel : Nat} {st : PState} {u : Unit} {st' : PState}
    (h : parseFunction fuel st = some (u, st')) :
    st'.status = .success ∨ st'.status = .invalid_mangled_name := by
  rw [parseFunction.eq_def] at h
  split at h
  rw [obind.eq_def] at h
  split at h
  · exact Option.noConfusion h
  · split at h
    · split at h
      · split at h
        rw [obind.eq_def] at h
        split at h
        · exact Option.noConfusion h
        · exact parseFunctionTail_status h
      · next st4 hcc =>
        cases h
        exact Or.inr (consumeC_false hcc)
    · next st3 hcr =>
      cases h
      exact Or.inr (checkResult_false hcr)

/-- Counterexample to claim C7: on the empty input, `parse` neither runs
`parseFunction` (no leading `'@'`) nor flags leftover input (there is none),
so the constructor leaves the status at `InProgress` — observable
post-construction. -/
theorem c7_counterexample :
    statusOf (borlandParse 5 ([] : List Char)) = some .in_progress ∧
    statusOf (borlandParse 5 ([] : List Char)) ≠ some .success ∧
    statusOf (borlandParse 5 ([] : List Char)) ≠ some .invalid_mangled_name := by
  refine ⟨rfl, ?_, ?_⟩ <;> decide

/-- Claim C7, amended: for every *non-empty* input (the empty string is the
exception forced by the counterexample), the status observable after
construction is `Success` or `InvalidMangledName`, never `InProgress`. -/
theorem c7_status_amended (fuel : Nat) (input : List Char) (st' : PState)
    (hne : input ≠ []) (h : borlandParse fuel input = some st') :
    st'.status ≠ .in_progress := by
  rw [borlandParse] at h
  split at h
  · rw [runParse.eq_def] at h
    split at h
    · exact Option.noConfusion h
    · next u st1 hpf =>
      have heq : finishParse st1 = st' := Option.some.inj h
      have hdec := parseFunction_status hpf
      rw [finishParse] at heq
      split at heq
      · subst heq
        rcases hdec with hs | hs <;> simp [hs]
      · subst heq
        simp [setInvalid]
  · have heq : finishParse (initState input) = st' := Option.some.inj h
    rw [finishParse] at heq
    split at heq
    · next hle =>
      simp only [initState] at hle
      exact absurd (List.length_eq_zero.mp (Nat.le_zero.mp hle)) hne
    · subst heq
      simp [setInvalid]

/-- Witness for the amended C7 at the non-`'@'` input `"a"`. -/
theorem c7_status_amended_witness :
    "a".data ≠ [] ∧ c7stA.status ≠ .in_progress :=
  ⟨by decide, c7_status_amended 3 "a".data c7stA (by decide) rfl⟩

/-- Claim C8: a consumed number field starting with `'0'` makes `parseNumber`
set `InvalidMangledName` (consuming nothing), while the non-consuming probe
`peekNumber` returns 0 with no error; and the whole input `"@x$q0i"` parses
to `InvalidMangledName`. -/
theorem c8_leading_zero :
    (∀ st : PState, headRem st = some '0' → parseNumber st = (0, setInvalid st))
    ∧ (∀ st : PState, headRem st = some '0' → peekNumberVal st = 0)
    ∧ statusOf (borlandParse 30 "@x$q0i".data) = some .invalid_mangled_name := by
  refine ⟨?_, ?_, rfl⟩
  · intro st h
    simp [parseNumber, h]
  · intro st h
    simp [peekNumberVal, h]

/-- Witness for C8 on a state whose remaining input is `"01"`. -/
theorem c8_leading_zero_witness :
    parseNumber c8st = (0, setInvalid c8st) ∧ peekNumberVal c8st = 0 :=
  ⟨c8_leading_zero.1 c8st rfl, c8_leading_zero.2.1 c8st rfl⟩

/-- Claim C10: false of the code.  Parsing `"@"` makes `parseFuncName` scan
`*c` at `c == end` (the NUL terminator) and then call `_mangled.front()` on
the now-empty view, so the parse of `"@"` performs reads at the end of the
remaining view — recorded by the `oob` flag of the final state. -/
theorem c10_oob_read : borlandParse 5 "@".data = some c10st ∧ c10st.oob = true :=
  ⟨rfl, rfl⟩

/-- Claim C4: false of the code for `'r'`.  On `"@f$qrri"` the inner type of
the reference is itself a reference; `parseReference` then returns null
*without* setting the status (lines 405-409 have no status assignment,
unlike `parseRReference`), the null parameter is silently skipped by
`parseFuncParams`, and the whole parse ends in `Success` with the parameter
list dropped (`funcType` with a null parameter array in the final arena). -/
theorem c4_reference_to_reference_success :
    borlandParse 30 "@f$qrri".data = some c4stFinal ∧ c4stFinal.status = .success :=
  ⟨rfl, rfl⟩

/-- Counterexample to claim C3: from the same state (remaining `"t1i%"`,
empty list, so the peeked index 1 is out of range) the two loops behave
differently — `parseFuncParams` consumes the number and sets
`InvalidMangledName` directly, while `parseTemplateParams` treats `'t'` as
consumed and falls through to type parsing at `"1i%"`, producing a
`NamedType` argument with no error. -/
theorem c3_counterexample :
    (fns 10).pFuncParamsLoop [] c3st
      = some (none, ⟨"t1i%".data, 2, .invalid_mangled_name, [], none, false⟩)
    ∧ (fns 10).pTemplParamsLoop [] c3st
      = some (some [1], ⟨"t1i%".data, 3, .in_progress, [.nameN ['i'], .namedT 0 q0], none, false⟩) :=
  ⟨rfl, rfl⟩

/-- Counterexample to claim C9: on a `"xw"` qualifier prefix the parser does
not consume both characters with both flags set; it consumes only `'x'` and
reports `const` only (`'w'` is left for the type dispatch). -/
theorem c9_counterexample :
    parseQualifiers c9stXW = (⟨false, true⟩, advance c9stXW 1)
    ∧ ¬((parseQualifiers c9stXW).1 = ⟨true, true⟩
        ∧ (parseQualifiers c9stXW).2.pos = c9stXW.pos + 2) :=
  ⟨rfl, by decide⟩

/-- Claim C9, amended: the qualifier prefix is parsed in the fixed order
`'w'` then `'x'`.  A `"wx"` prefix is consumed whole with both flags set and
the type dispatch proceeds after both characters; a leading `'x'` consumes
only the `'x'` and yields `const` alone, leaving the `'w'` (if any) to the
type dispatch. -/
theorem c9_qualifier_order (st : PState) :
    ((remaining st).take 2 = ['w', 'x'] →
      parseQualifiers st = (⟨true, true⟩, advance (advance st 1) 1)
      ∧ ∀ P : PFns, pTypeF P st = pTypeDispatch P ⟨true, true⟩ (advance (advance st 1) 1))
    ∧ (headRem st = some 'x' → parseQualifiers st = (⟨false, true⟩, advance st 1)) := by
  constructor
  · intro h2
    obtain ⟨rest, hrest⟩ : ∃ rest, remaining st = 'w' :: 'x' :: rest := by
      cases hr : remaining st with
      | nil => rw [hr] at h2; simp at h2
      | cons a t =>
        rw [hr] at h2
        cases t with
        | nil => simp at h2
        | cons b t2 =>
          simp only [List.take_succ_cons, List.take, List.cons.injEq] at h2
          obtain ⟨ha, hb, -⟩ := h2
          exact ⟨t2, by rw [ha, hb]⟩
    have hw : headRem st = some 'w' := by rw [headRem, hrest]; rfl
    have hx : headRem (advance st 1) = some 'x' := by
      rw [headRem, remaining_advance, hrest]; rfl
    have hq1 : consumeFrontChar 'w' st = (true, advance st 1) := by
      rw [consumeFrontChar, if_pos hw]
    have hq2 : consumeFrontChar 'x' (advance st 1) = (true, advance (advance st 1) 1) := by
      rw [consumeFrontChar, if_pos hx]
    have hQ : parseQualifiers st = (⟨true, true⟩, advance (advance st 1) 1) := by
      simp only [parseQualifiers, hq1, hq2]
    refine ⟨hQ, fun P => ?_⟩
    simp only [pTypeF, hQ]
  · intro hx
    have hnw : ¬ headRem st = some 'w' := by
      rw [hx]; intro hc; cases hc
    have hq1 : consumeFrontChar 'w' st = (false, st) := by
      rw [consumeFrontChar, if_neg hnw]
    have hq2 : consumeFrontChar 'x' st = (true, advance st 1) := by
      rw [consumeFrontChar, if_pos hx]
    simp only [parseQualifiers, hq1, hq2]

/-- Witness for the amended C9 on the prefixes `"wxi"` and `"xw"`. -/
theorem c9_qualifier_order_witness :
    parseQualifiers c9stWX = (⟨true, true⟩, advance (advance c9stWX 1) 1)
    ∧ parseQualifiers c9stXW = (⟨false, true⟩, advance c9stXW 1) :=
  ⟨((c9_qualifier_order c9stWX).1 (by decide)).1, (c9_qualifier_order c9stXW).2 rfl⟩

theorem advance_status (st : PState) (n : Nat) : (advance st n).status = st.status := rfl

theorem advance_arena (st : PState) (n : Nat) : (advance st n).arena = st.arena := rfl

theorem rawFront_of_headRem {st : PState} {c : Char} (h : headRem st = some c) :
    rawFront st = (c, st) := by
  have hne := headRem_ne_empty h
  rw [rawFront, readCharAt, if_neg hne, charAt.eq_def]
  rw [show (st.s.drop st.pos).head? = some c from h]

theorem consumeFrontChar_of_headRem {st : PState} {c : Char} (h : headRem st = some c) :
    consumeFrontChar c st = (true, advance st 1) := by
  rw [consumeFrontChar, if_pos h]

/-- One loop iteration on an in-range backreference, in all three list
loops: the digits are consumed and the handle already stored at the 1-based
position `k` is appended — the same handle, with no new node created (the
arena is unchanged) and no error. -/
theorem backref_good_step (n : Nat) (st : PState) (params : List Nat) (k : Nat)
    (hst : st.status = .in_progress)
    (hfr : headRem st = some 't')
    (hpk : peekNumberVal (advance st 1) = k)
    (h1 : 1 ≤ k) (h2 : k ≤ params.length) :
    (fns (n + 1)).pFuncParamsLoop params st
      = (fns n).pFuncParamsLoop (params ++ [params.getD (k - 1) 0]) (parseNumber (advance st 1)).2
    ∧ (fns (n + 1)).pTemplParamsLoop params st
      = (fns n).pTemplParamsLoop (params ++ [params.getD (k - 1) 0]) (parseNumber (advance st 1)).2
    ∧ (fns (n + 1)).pTemplBLoop params st
      = (fns n).pTemplBLoop (params ++ [params.getD (k - 1) 0]) (parseNumber (advance st 1)).2
    ∧ (parseNumber (advance st 1)).2.arena = st.arena
    ∧ (parseNumber (advance st 1)).2.status = .in_progress := by
  have hne := headRem_ne_empty hfr
  have hct := consumeFrontChar_of_headRem hfr
  have hraw := rawFront_of_headRem hfr
  have hpn := parseNumber_of_peek_pos hpk h1
  have hk0 : ¬ k = 0 := by omega
  have hlt : ¬ params.length < k := by omega
  have hcond : ¬ (st.s.length ≤ st.pos ∨ st.status ≠ Status.in_progress
      ∨ headRem st = some '$') := by
    simp only [hst, hfr]
    simp [hne]
  refine ⟨?_, ?_, ?_, ?_, ?_⟩
  · show pFuncParamsLoopF (fns n) params st = _
    rw [pFuncParamsLoopF]
    rw [if_neg hcond, hct]
    simp only [hpn, advance_status, hst, hk0, hlt]
    simp
  · show pTemplParamsLoopF (fns n) params st = _
    rw [pTemplParamsLoopF]
    rw [hraw]
    simp only [hct, hpk, hpn]
    simp [h1, h2]
  · show pTemplBLoopF (fns n) params st = _
    rw [pTemplBLoopF]
    rw [hfr]
    simp only [hct, hpk, hpn]
    simp [h1, h2]
  · rw [hpn]
    rfl
  · rw [hpn]; exact hst

/-- One loop iteration on a `'t'` whose peeked number is 0 or out of range:
the parameter-list loop consumes the number and directly sets
`invalid_mangled_name`; the template-argument loop keeps the `'t'` consumed
and falls through to ordinary type parsing of what follows it. -/
theorem backref_bad_step (n : Nat) (st : PState) (params : List Nat) (k : Nat)
    (hst : st.status = .in_progress)
    (hfr : headRem st = some 't')
    (hpk : peekNumberVal (advance st 1) = k)
    (hbad : k = 0 ∨ params.length < k) :
    (fns (n + 1)).pFuncParamsLoop params st
      = some (none, setInvalid (parseNumber (advance st 1)).2)
    ∧ (fns (n + 1)).pTemplParamsLoop params st
      = templParamsTypeStep (fns n) params (advance st 1) := by
  have hne := headRem_ne_empty hfr
  have hct := consumeFrontChar_of_headRem hfr
  have hraw := rawFront_of_headRem hfr
  have hfst : (parseNumber (advance st 1)).1 = k := by rw [parseNumber_fst]; exact hpk
  have hcond : ¬ (st.s.length ≤ st.pos ∨ st.status ≠ Status.in_progress
      ∨ headRem st = some '$') := by
    simp only [hst, hfr]
    simp [hne]
  have hbadpeek : ¬ (1 ≤ peekNumberVal (advance st 1)
      ∧ peekNumberVal (advance st 1) ≤ params.length) := by
    rw [hpk]; omega
  constructor
  · show pFuncParamsLoopF (fns n) params st = _
    rw [pFuncParamsLoopF]
    rw [if_neg hcond, hct]
    dsimp only
    rcases hpn2 : parseNumber (advance st 1) with ⟨k', st2⟩
    dsimp only
    have hk' : k' = k := by rw [← hfst, hpn2]
    subst hk'
    have hguard : k' = 0 ∨ params.length < k' ∨ st2.status ≠ Status.in_progress := by
      rcases hbad with hb | hb
      · exact Or.inl hb
      · exact Or.inr (Or.inl hb)
    rw [if_pos hguard]
  · show pTemplParamsLoopF (fns n) params st = _
    rw [pTemplParamsLoopF]
    rw [hraw]
    simp only [hct]
    rw [if_neg (by simp), if_neg hbadpeek]

/-- Claim C5: whenever a `'t'`-backreference with an in-range index `k` is
resolved — in the function-parameter loop, the unbounded template-argument
loop or the bounded template-argument loop — the entry appended to the list
is exactly `params.getD (k-1) 0`, the same node handle already stored at the
1-based position `k`, and the node arena is unchanged (nothing is re-parsed
or copied). -/
theorem c5_backref_identity (n : Nat) (st : PState) (params : List Nat) (k : Nat)
    (hst : st.status = .in_progress)
    (hfr : headRem st = some 't')
    (hpk : peekNumberVal (advance st 1) = k)
    (h1 : 1 ≤ k) (h2 : k ≤ params.length) :
    (fns (n + 1)).pFuncParamsLoop params st
      = (fns n).pFuncParamsLoop (params ++ [params.getD (k - 1) 0]) (parseNumber (advance st 1)).2
    ∧ (fns (n + 1)).pTemplParamsLoop params st
      = (fns n).pTemplParamsLoop (params ++ [params.getD (k - 1) 0]) (parseNumber (advance st 1)).2
    ∧ (fns (n + 1)).pTemplBLoop params st
      = (fns n).pTemplBLoop (params ++ [params.getD (k - 1) 0]) (parseNumber (advance st 1)).2
    ∧ (parseNumber (advance st 1)).2.arena = st.arena := by
  obtain ⟨ha, hb, hc, hd, -⟩ := backref_good_step n st params k hst hfr hpk h1 h2
  exact ⟨ha, hb, hc, hd⟩

/-- Witness for C5: state `"t1$"` with one stored handle 42, peeked index 1. -/
theorem c5_backref_identity_witness :
    (fns 4).pFuncParamsLoop [42] c5st
      = (fns 3).pFuncParamsLoop ([42] ++ [[42].getD (1 - 1) 0]) (parseNumber (advance c5st 1)).2
    ∧ (fns 4).pTemplParamsLoop [42] c5st
      = (fns 3).pTemplParamsLoop ([42] ++ [[42].getD (1 - 1) 0]) (parseNumber (advance c5st 1)).2
    ∧ (fns 4).pTemplBLoop [42] c5st
      = (fns 3).pTemplBLoop ([42] ++ [[42].getD (1 - 1) 0]) (parseNumber (advance c5st 1)).2
    ∧ (parseNumber (advance c5st 1)).2.arena = c5st.arena :=
  c5_backref_identity 3 c5st [42] 1 rfl rfl (by decide) (by decide) (by decide)

/-- Claim C3, amended: backreference handling is *not* identical in the two
list kinds.  On `'t'` with peeked index `k`: if `k` is in `[1, list size]`,
both loops consume the digits and append the same stored handle; otherwise
the function-parameter loop consumes the number and sets
`InvalidMangledName` directly, while the template-argument loop treats the
`'t'` as consumed and falls through to ordinary type parsing starting
*after* the `'t'` (not at the `'t'` itself). -/
theorem c3_backref_divergence (n : Nat) (st : PState) (params : List Nat) (k : Nat)
    (hst : st.status = .in_progress)
    (hfr : headRem st = some 't')
    (hpk : peekNumberVal (advance st 1) = k) :
    ((1 ≤ k ∧ k ≤ params.length) →
      (fns (n + 1)).pFuncParamsLoop params st
        = (fns n).pFuncParamsLoop (params ++ [params.getD (k - 1) 0])
            (parseNumber (advance st 1)).2
      ∧ (fns (n + 1)).pTemplParamsLoop params st
        = (fns n).pTemplParamsLoop (params ++ [params.getD (k - 1) 0])
            (parseNumber (advance st 1)).2)
    ∧ ((k = 0 ∨ params.length < k) →
      (fns (n + 1)).pFuncParamsLoop params st
        = some (none, setInvalid (parseNumber (advance st 1)).2)
      ∧ (fns (n + 1)).pTemplParamsLoop params st
        = templParamsTypeStep (fns n) params (advance st 1)) := by
  constructor
  · intro hin
    obtain ⟨ha, hb, -, -, -⟩ := backref_good_step n st params k hst hfr hpk hin.1 hin.2
    exact ⟨ha, hb⟩
  · intro hbad
    exact backref_bad_step n st params k hst hfr hpk hbad

/-- Witness for the amended C3: the in-range case on `"t1$"` with list
`[42]`, and the out-of-range case on `"t1i%"` with the empty list. -/
theorem c3_backref_divergence_witness :
    ((fns 4).pFuncParamsLoop [42] c5st
      = (fns 3).pFuncParamsLoop ([42] ++ [[42].getD (1 - 1) 0]) (parseNumber (advance c5st 1)).2)
    ∧ ((fns 4).pFuncParamsLoop [] c3st
      = some (none, setInvalid (parseNumber (advance c3st 1)).2))
    ∧ ((fns 4).pTemplParamsLoop [] c3st
      = templParamsTypeStep (fns 3) [] (advance c3st 1)) := by
  have hgood := (c3_backref_divergence 3 c5st [42] 1 rfl rfl (by decide)).1 (by decide)
  have hbad := (c3_backref_divergence 3 c3st [] 1 rfl rfl (by decide)).2 (by decide)
  exact ⟨hgood.1, hbad.1, hbad.2⟩

/-- Any non-null return of the bounded template tail has its cursor exactly
on the declared boundary. -/
theorem templBAfterParams_pos {tnn endIdx : Nat} {ps : List Nat} {st6 : PState}
    {h : Nat} {st' : PState}
    (hh : templBAfterParams tnn endIdx ps st6 = some (some h, st')) : st'.pos = endIdx := by
  simp only [templBAfterParams] at hh
  split at hh
  · split at hh
    · simp at hh
    · next hne =>
      simp only [mkNodeM, createNode, Option.some.injEq, Prod.mk.injEq] at hh
      obtain ⟨-, h2⟩ := hh
      subst h2
      exact not_ne_iff.mp hne
  · simp at hh

/-- Any non-null return of the bounded `parseTemplate` has its cursor exactly
on the declared end-of-name boundary. -/
theorem pTemplBF_pos (P : PFns) (ns : Option Nat) (endIdx : Nat) (st : PState)
    (h : Nat) (st' : PState)
    (hh : pTemplBF P ns endIdx st = some (some h, st')) : st'.pos = endIdx := by
  simp only [pTemplBF] at hh
  split at hh
  · split at hh
    · simp at hh
    · split at hh
      · rw [obind.eq_def] at hh
        split at hh
        · exact Option.noConfusion hh
        · exact templBAfterParams_pos hh
      · simp at hh
  · simp at hh

/-- Any null return of the bounded template tail carries the sticky
`invalid_mangled_name` status: both the failed closing `'%'` and the
boundary mismatch set it. -/
theorem templBAfterParams_none {tnn endIdx : Nat} {ps : List Nat} {st6 : PState}
    {st' : PState}
    (hh : templBAfterParams tnn endIdx ps st6 = some (none, st')) :
    st'.status = .invalid_mangled_name := by
  simp only [templBAfterParams] at hh
  split at hh
  · split at hh
    · simp only [Option.some.injEq, Prod.mk.injEq] at hh
      obtain ⟨-, h2⟩ := hh
      subst h2
      rfl
    · simp [mkNodeM, createNode] at hh
  · next st1 hcc =>
    simp only [Option.some.injEq, Prod.mk.injEq] at hh
    obtain ⟨-, h2⟩ := hh
    subst h2
    exact consumeC_false hcc

/-- Any null return of the bounded `parseTemplate` carries the sticky
`invalid_mangled_name` status: every failing path — missing `'%'`, empty
template name, missing `'$'`, missing closing `'%'`, or the boundary
mismatch — sets it before returning null. -/
theorem pTemplBF_none (P : PFns) (ns : Option Nat) (endIdx : Nat) (st : PState)
    (st' : PState)
    (hh : pTemplBF P ns endIdx st = some (none, st')) :
    st'.status = .invalid_mangled_name := by
  simp only [pTemplBF] at hh
  split at hh
  · split at hh
    · simp only [Option.some.injEq, Prod.mk.injEq] at hh
      obtain ⟨-, h2⟩ := hh
      subst h2
      rfl
    · split at hh
      · rw [obind.eq_def] at hh
        split at hh
        · exact Option.noConfusion hh
        · exact templBAfterParams_none hh
      · next st6 hcc =>
        simp only [Option.some.injEq, Prod.mk.injEq] at hh
        obtain ⟨-, h2⟩ := hh
        subst h2
        exact consumeC_false hcc
  · next st1 hcc =>
    simp only [Option.some.injEq, Prod.mk.injEq] at hh
    obtain ⟨-, h2⟩ := hh
    subst h2
    exact consumeC_false hcc

/-- Claim C6: a length-prefixed named type whose declared length `len`
exceeds the remaining input is rejected with `InvalidMangledName`
immediately; whenever the bounded template parse embedded in such a name
returns a node, the cursor after its closing `'%'` coincides exactly with
the precomputed boundary `begin + len`; every null return of the bounded
template parse carries `InvalidMangledName`; and in particular, once the
closing `'%'` has been consumed, a cursor not sitting exactly on the
boundary makes the tail return null with `InvalidMangledName` set. -/
theorem c6_boundary_invariant :
    (∀ (n : Nat) (st : PState) (len : Nat) (q : Qualifiers),
      st.s.length < st.pos + len →
      (fns (n + 1)).pNamedType len q st = some (none, setInvalid st))
    ∧ (∀ (n : Nat) (ns : Option Nat) (endIdx : Nat) (st : PState) (h : Nat) (st' : PState),
      (fns n).pTemplB ns endIdx st = some (some h, st') → st'.pos = endIdx)
    ∧ (∀ (n : Nat) (ns : Option Nat) (endIdx : Nat) (st st' : PState),
      (fns n).pTemplB ns endIdx st = some (none, st') →
      st'.status = .invalid_mangled_name)
    ∧ (∀ (tnn endIdx : Nat) (ps : List Nat) (st st1 : PState),
      consumeC '%' st = (true, st1) → st1.pos ≠ endIdx →
      templBAfterParams tnn endIdx ps st = some (none, setInvalid st1)) := by
  refine ⟨?_, ?_, ?_, ?_⟩
  · intro n st len q hlt
    show pNamedTypeF (fns n) len q st = _
    rw [pNamedTypeF, if_pos hlt]
  · intro n ns endIdx st h st' hh
    cases n with
    | zero => exact Option.noConfusion hh
    | succ m => exact pTemplBF_pos (fns m) ns endIdx st h st' hh
  · intro n ns endIdx st st' hh
    cases n with
    | zero => exact Option.noConfusion hh
    | succ m => exact pTemplBF_none (fns m) ns endIdx st st' hh
  · intro tnn endIdx ps st st1 hcc hne
    simp only [templBAfterParams, hcc]
    rw [if_pos hne]

/-- Witness for C6: declared length 5 exceeding a 2-character input; the
bounded template `"%t$i%"` with boundary 5 landing exactly on it; the same
template against the wrong boundary 7 returning null with
`InvalidMangledName`; and the mismatch branch itself at the state just
before the closing `'%'`. -/
theorem c6_boundary_invariant_witness :
    (fns 3).pNamedType 5 q0 c6stShort = some (none, setInvalid c6stShort)
    ∧ c6stT'.pos = 5
    ∧ c6stMM.status = .invalid_mangled_name
    ∧ templBAfterParams 0 7 [1] c6stPre = some (none, setInvalid (advance c6stPre 1)) :=
  ⟨c6_boundary_invariant.1 2 c6stShort 5 q0 (by decide),
   c6_boundary_invariant.2.1 9 none 5 c6stT 2 c6stT' (by rfl),
   c6_boundary_invariant.2.2.1 9 none 7 c6stT c6stMM (by rfl),
   c6_boundary_invariant.2.2.2 0 7 [1] c6stPre (advance c6stPre 1) (by rfl) (by decide)⟩
